import Mathlib

/-!
Verification of the resilience layer: the retry orchestrator with exponential
backoff (`withRetry` / `calculateDelay` from `src/lib/agent-helpers`) and the
KV-backed circuit breaker (`CircuitBreaker` from `src/lib/circuit-breaker`).

Conventions of the embedding:
* Millisecond timestamps and counters are natural numbers; JS floating-point
  delay arithmetic is embedded into the exact rationals `ℚ` (0.25 = 1/4).
* A fallible async operation is a value of `Except E T` (its outcome for one
  invocation); a family of attempts is `ℕ → Except E T`, indexed by the
  1-based attempt number.
* `Math.random()` is an oracle `rand : ℕ → ℚ`, the jitter factor drawn before
  the sleep that follows the given attempt; callers constrain it to `[0, 1)`.
* Thrown JS exceptions are `Except.error`; the `undefined` value thrown by
  `withRetry` when its loop body never ran is `Except.error none` (so the
  orchestrator's raised value lives in `Except (Option E) T`).
-/

namespace Resilience

/-- Options of `withRetry` (`RetryOptions` with `DEFAULT_OPTIONS` applied):
`maxRetries`, `initialDelayMs`, `maxDelayMs`, `backoffMultiplier`.  The two
function-valued options `shouldRetry`/`onRetry` are passed separately. -/
structure RetryOpts where
  maxRetries : ℕ
  initialDelayMs : ℚ
  maxDelayMs : ℚ
  backoffMultiplier : ℚ
deriving DecidableEq

/-- `calculateDelay` of `executeStream.ts`: exponential backoff
`initialDelay * multiplier ^ (attempt - 1)`, capped at `maxDelay`, plus a
jitter of `cappedDelay * Math.random() * 0.25`, floored to an integer.
The random draw is the explicit argument `r`. -/
def calculateDelay (attempt : ℕ) (initialDelay maxDelay multiplier r : ℚ) : ℤ :=
  let exponentialDelay := initialDelay * multiplier ^ (attempt - 1)
  let cappedDelay := min exponentialDelay maxDelay
  let jitter := cappedDelay * r * (1 / 4)
  ⌊cappedDelay + jitter⌋

/-- Observable outcome of one `withRetry` call: the settled result (with
`Except.error none` standing for a thrown `undefined` `lastError`), how many
times the wrapped operation was invoked, and the list of delays actually
slept between attempts, in order. -/
structure RetryOutcome (E T : Type) where
  result : Except (Option E) T
  invocations : ℕ
  delays : List ℤ

/-- The `for (attempt = 1; attempt <= maxRetries; attempt++)` loop of
`withRetry`, embedded structurally: `remaining` is the number of loop
iterations still permitted (`maxRetries - attempt + 1`), so `remaining = 0`
is loop exit (`throw lastError`, which is `undefined` when no iteration ever
ran) and `remaining = 1` means the current attempt is the last one
(`attempt === maxRetries`).  On a retryable non-final failure the delay is
computed, then `onRetry` is invoked — if the hook throws, that exception
propagates out of `withRetry` exactly as in the source, where the hook call
is not guarded by any try/catch — then the loop sleeps `delay` and repeats. -/
def withRetryLoop (op : ℕ → Except E T) (shouldRetry : E → ℕ → Bool)
    (onRetry : E → ℕ → Except E Unit) (opts : RetryOpts) (rand : ℕ → ℚ) :
    ℕ → ℕ → RetryOutcome E T
  | 0, _ => ⟨Except.error none, 0, []⟩
  | remaining + 1, attempt =>
    match op attempt with
    | Except.ok v => ⟨Except.ok v, 1, []⟩
    | Except.error e =>
      if remaining = 0 || !(shouldRetry e attempt) then
        ⟨Except.error (some e), 1, []⟩
      else
        let delay := calculateDelay attempt opts.initialDelayMs opts.maxDelayMs
          opts.backoffMultiplier (rand attempt)
        match onRetry e attempt with
        | Except.error h => ⟨Except.error (some h), 1, []⟩
        | Except.ok _ =>
          let rest := withRetryLoop op shouldRetry onRetry opts rand remaining (attempt + 1)
          ⟨rest.result, rest.invocations + 1, delay :: rest.delays⟩

/-- `withRetry` of `executeStream.ts`: run the attempt loop starting at
attempt 1 with `maxRetries` iterations allowed. -/
def withRetry (op : ℕ → Except E T) (shouldRetry : E → ℕ → Bool)
    (onRetry : E → ℕ → Except E Unit) (opts : RetryOpts) (rand : ℕ → ℚ) :
    RetryOutcome E T :=
  withRetryLoop op shouldRetry onRetry opts rand opts.maxRetries 1

/-- The hook value modelling an absent (or never-throwing) `onRetry`. -/
def noHook : E → ℕ → Except E Unit := fun _ _ => Except.ok ()

/-- Boolean success test on an `Except` outcome. -/
def exceptIsOk : Except E T → Bool
  | Except.ok _ => true
  | Except.error _ => false

/-- `CircuitState` of `circuit-breaker/index.ts`.  The source's `OPEN` is
spelled `opened` here because `open` is reserved in Lean. -/
inductive CircuitState where
  | closed
  | opened
  | halfOpen
deriving DecidableEq

/-- `CircuitBreakerState`: the persisted per-breaker record. -/
structure CircuitBreakerState where
  state : CircuitState
  failures : ℕ
  successes : ℕ
  lastFailureTime : Option ℕ
  nextRetryTime : Option ℕ
  consecutiveSuccesses : ℕ
  totalRequests : ℕ
deriving DecidableEq

/-- The zeroed CLOSED record that `getState` returns for an absent key (and
as the fallback when the store read throws). -/
def defaultBreakerState : CircuitBreakerState :=
  { state := CircuitState.closed
    failures := 0
    successes := 0
    lastFailureTime := none
    nextRetryTime := none
    consecutiveSuccesses := 0
    totalRequests := 0 }

/-- The configuration a `CircuitBreaker` instance carries after its
constructor applied the `options.x || default` fallbacks.
(`halfOpenMaxAttempts` and `monitoringPeriod` only feed store TTLs and are
not part of the decision logic, so they are omitted.) -/
structure BreakerConfig where
  failureThreshold : ℕ
  successThreshold : ℕ
  timeout : ℕ
  volumeThreshold : ℕ
deriving DecidableEq

/-- Constructor options (absent fields are `none`). -/
structure CircuitBreakerOptions where
  failureThreshold : Option ℕ := none
  successThreshold : Option ℕ := none
  timeout : Option ℕ := none
  volumeThreshold : Option ℕ := none

/-- JavaScript `x || d` over an optional numeric option: `0` is falsy, so it
also falls back to the default. -/
def jsOr (v : Option ℕ) (d : ℕ) : ℕ :=
  match v with
  | some 0 => d
  | some n => n
  | none => d

/-- The `CircuitBreaker` constructor's option defaulting. -/
def mkBreakerConfig (o : CircuitBreakerOptions) : BreakerConfig :=
  { failureThreshold := jsOr o.failureThreshold 5
    successThreshold := jsOr o.successThreshold 3
    timeout := jsOr o.timeout 60000
    volumeThreshold := jsOr o.volumeThreshold 10 }

/-- The Shared State Store (the KV namespace) as seen by one breaker:
the stored state snapshot under `circuit:<name>:state`, the volume counter
under `circuit:<name>:requests`, and a `broken` flag — when `true`, every
`get`/`put` throws, driving `getState`/`setState`/`recordRequest` into their
catch branches. -/
structure KVStore where
  stateVal : Option CircuitBreakerState
  requestCount : Option ℕ
  broken : Bool
deriving DecidableEq

/-- `getState`: read and parse the persisted record; absent key or a store
failure both yield the zeroed CLOSED default (the catch logs and falls
back). -/
def getState (kv : KVStore) : CircuitBreakerState :=
  if kv.broken then defaultBreakerState
  else
    match kv.stateVal with
    | none => defaultBreakerState
    | some s => s

/-- `setState`: persist the record; a store failure is swallowed (the catch
only logs), leaving the store unchanged. -/
def setState (kv : KVStore) (s : CircuitBreakerState) : KVStore :=
  if kv.broken then kv else { kv with stateVal := some s }

/-- `recordRequest`: increment and persist the volume counter, returning the
new count; on a store failure the catch returns `0` and nothing is
written. -/
def recordRequest (kv : KVStore) : ℕ × KVStore :=
  if kv.broken then (0, kv)
  else
    let count := match kv.requestCount with
      | some c => c + 1
      | none => 1
    (count, { kv with requestCount := some count })

/-- `shouldAttemptReset`: `true` exactly when the record is OPEN, carries a
`nextRetryTime`, and `now >= nextRetryTime`. -/
def shouldAttemptReset (s : CircuitBreakerState) (now : ℕ) : Bool :=
  if s.state ≠ CircuitState.opened then false
  else
    match s.nextRetryTime with
    | some t => decide (t ≤ now)
    | none => false

/-- The OPEN → HALF_OPEN transition step of `execute` (lines guarded by
`shouldAttemptReset`): flip to HALF_OPEN and zero `consecutiveSuccesses`;
otherwise leave the record alone. -/
def resetCheck (s : CircuitBreakerState) (now : ℕ) : CircuitBreakerState :=
  if shouldAttemptReset s now then
    { s with state := CircuitState.halfOpen, consecutiveSuccesses := 0 }
  else s

/-- What one `execute` call settles to: the operation's own result, the
operation's own error rethrown, or the synthesized `Circuit breaker is OPEN`
error of the short-circuit path.  Store failures never appear here: the
source catches them inside `getState`/`setState`/`recordRequest`. -/
inductive ExecResult (E T : Type) where
  | ok (v : T)
  | opError (e : E)
  | breakerOpen
deriving DecidableEq

/-- Repackage an operation outcome as the pass-through `execute` result. -/
def liftResult : Except E T → ExecResult E T
  | Except.ok v => ExecResult.ok v
  | Except.error e => ExecResult.opError e

/-- Observable outcome of one `execute` call: the settled result, whether
the wrapped operation was invoked, and the store afterwards. -/
structure ExecOutcome (E T : Type) where
  result : ExecResult E T
  invoked : Bool
  kv : KVStore
deriving DecidableEq

/-- `executeInClosedState`: on success, only a record with prior failures is
rewritten (failures zeroed, `successes`/`totalRequests` bumped); on failure,
bump `failures`/`totalRequests`, stamp `lastFailureTime`, and trip to OPEN
with `nextRetryTime = now + timeout` once `failures >= failureThreshold`,
then rethrow. -/
def executeInClosedState (cfg : BreakerConfig) (kv : KVStore) (now : ℕ)
    (op : Except E T) (state : CircuitBreakerState) : ExecOutcome E T :=
  match op with
  | Except.ok v =>
    if state.failures > 0 then
      let s := { state with
        failures := 0
        successes := state.successes + 1
        totalRequests := state.totalRequests + 1 }
      { result := ExecResult.ok v, invoked := true, kv := setState kv s }
    else
      { result := ExecResult.ok v, invoked := true, kv := kv }
  | Except.error e =>
    let s1 := { state with
      failures := state.failures + 1
      lastFailureTime := some now
      totalRequests := state.totalRequests + 1 }
    let s2 := if cfg.failureThreshold ≤ s1.failures then
        { s1 with
          state := CircuitState.opened
          nextRetryTime := some (now + cfg.timeout) }
      else s1
    { result := ExecResult.opError e, invoked := true, kv := setState kv s2 }

/-- `executeInHalfOpenState`: on success bump `consecutiveSuccesses`,
`successes`, `totalRequests` and close the circuit (zeroing `failures` and
`consecutiveSuccesses`) once the success streak reaches `successThreshold`;
a single failure reopens the circuit with a fresh `nextRetryTime` and
rethrows. -/
def executeInHalfOpenState (cfg : BreakerConfig) (kv : KVStore) (now : ℕ)
    (op : Except E T) (state : CircuitBreakerState) : ExecOutcome E T :=
  match op with
  | Except.ok v =>
    let s1 := { state with
      consecutiveSuccesses := state.consecutiveSuccesses + 1
      successes := state.successes + 1
      totalRequests := state.totalRequests + 1 }
    let s2 := if cfg.successThreshold ≤ s1.consecutiveSuccesses then
        { s1 with
          state := CircuitState.closed
          failures := 0
          consecutiveSuccesses := 0 }
      else s1
    { result := ExecResult.ok v, invoked := true, kv := setState kv s2 }
  | Except.error e =>
    let s := { state with
      state := CircuitState.opened
      failures := state.failures + 1
      consecutiveSuccesses := 0
      lastFailureTime := some now
      nextRetryTime := some (now + cfg.timeout)
      totalRequests := state.totalRequests + 1 }
    { result := ExecResult.opError e, invoked := true, kv := setState kv s }

/-- `execute`: read the record, bump the volume counter; below
`volumeThreshold` while CLOSED the call passes straight through with no
bookkeeping; otherwise run the OPEN → HALF_OPEN reset check (persisting the
flip) and dispatch on the resulting state — CLOSED and HALF_OPEN run the
operation through their handlers, OPEN short-circuits with the breaker-open
error without invoking it.  `now` is the call's wall-clock time and `op` the
outcome the wrapped operation would produce if invoked. -/
def execute (cfg : BreakerConfig) (kv : KVStore) (now : ℕ)
    (op : Except E T) : ExecOutcome E T :=
  let state := getState kv
  let rr := recordRequest kv
  let requestCount := rr.1
  let kv1 := rr.2
  if requestCount < cfg.volumeThreshold ∧ state.state = CircuitState.closed then
    { result := liftResult op, invoked := true, kv := kv1 }
  else
    let state2 := resetCheck state now
    let kv2 := if shouldAttemptReset state now then setState kv1 state2 else kv1
    match state2.state with
    | CircuitState.closed => executeInClosedState cfg kv2 now op state2
    | CircuitState.opened =>
      { result := ExecResult.breakerOpen, invoked := false, kv := kv2 }
    | CircuitState.halfOpen => executeInHalfOpenState cfg kv2 now op state2

/-- Thread a sequence of calls (each a wall-clock time paired with the
operation outcome it would produce) through `execute`, returning the final
store. -/
def executeSeq (cfg : BreakerConfig) (kv : KVStore)
    (calls : List (ℕ × Except E T)) : KVStore :=
  calls.foldl (fun k c => (execute cfg k c.1 c.2).kv) kv

/-- Lifetime attempt counter currently persisted in the store (0 when no
record is stored). -/
def storedTotal (kv : KVStore) : ℕ :=
  match kv.stateVal with
  | some s => s.totalRequests
  | none => 0

/-- Lifetime success counter currently persisted in the store. -/
def storedSuccesses (kv : KVStore) : ℕ :=
  match kv.stateVal with
  | some s => s.successes
  | none => 0

/-! ### Single-call behaviour of `execute`, by dispatch path -/

lemma executeSeq_nil (cfg : BreakerConfig) (kv : KVStore) :
    executeSeq cfg kv ([] : List (ℕ × Except E T)) = kv := rfl

lemma executeSeq_cons (cfg : BreakerConfig) (kv : KVStore)
    (c : ℕ × Except E T) (cs : List (ℕ × Except E T)) :
    executeSeq cfg kv (c :: cs) = executeSeq cfg (execute cfg kv c.1 c.2).kv cs := rfl

lemma executeSeq_append (cfg : BreakerConfig) (kv : KVStore)
    (l1 l2 : List (ℕ × Except E T)) :
    executeSeq cfg kv (l1 ++ l2) = executeSeq cfg (executeSeq cfg kv l1) l2 := by
  simp [executeSeq, List.foldl_append]

/-- A CLOSED record never passes the reset check. -/
lemma shouldAttemptReset_of_not_opened (s : CircuitBreakerState) (now : ℕ)
    (h : s.state ≠ CircuitState.opened) : shouldAttemptReset s now = false := by
  simp [shouldAttemptReset, h]

/-- Before `nextRetryTime`, an OPEN record fails the reset check. -/
lemma shouldAttemptReset_of_before (s : CircuitBreakerState) (now tr : ℕ)
    (htr : s.nextRetryTime = some tr) (hnow : now < tr) :
    shouldAttemptReset s now = false := by
  have : ¬ tr ≤ now := by omega
  simp [shouldAttemptReset, htr, this]

/-- At or past `nextRetryTime`, an OPEN record passes the reset check. -/
lemma shouldAttemptReset_of_ready (s : CircuitBreakerState) (now tr : ℕ)
    (hopen : s.state = CircuitState.opened)
    (htr : s.nextRetryTime = some tr) (hnow : tr ≤ now) :
    shouldAttemptReset s now = true := by
  simp [shouldAttemptReset, hopen, htr, hnow]

/-- Guarded CLOSED call, operation fails, failure count stays below the
threshold: failures and totalRequests are bumped and the failure time
stamped, state stays CLOSED. -/
lemma execute_closed_fail_below (cfg : BreakerConfig) (s0 : CircuitBreakerState)
    (c0 t : ℕ) (e : E)
    (hclosed : s0.state = CircuitState.closed)
    (hvol : cfg.volumeThreshold ≤ c0 + 1)
    (hbelow : s0.failures + 1 < cfg.failureThreshold) :
    execute cfg ⟨some s0, some c0, false⟩ t (Except.error e : Except E T) =
      ⟨ExecResult.opError e, true,
        ⟨some { s0 with
          failures := s0.failures + 1
          lastFailureTime := some t
          totalRequests := s0.totalRequests + 1 }, some (c0 + 1), false⟩⟩ := by
  have hnv : ¬ (c0 + 1 < cfg.volumeThreshold) := by omega
  have hnt : ¬ (cfg.failureThreshold ≤ s0.failures + 1) := by omega
  simp [execute, getState, recordRequest, setState, shouldAttemptReset, resetCheck,
    executeInClosedState, hclosed, hnv, hnt]

/-- Guarded CLOSED call, operation fails, failure count reaches the
threshold: the circuit trips to OPEN with `nextRetryTime = now + timeout`. -/
lemma execute_closed_fail_trip (cfg : BreakerConfig) (s0 : CircuitBreakerState)
    (c0 t : ℕ) (e : E)
    (hclosed : s0.state = CircuitState.closed)
    (hvol : cfg.volumeThreshold ≤ c0 + 1)
    (htrip : cfg.failureThreshold ≤ s0.failures + 1) :
    execute cfg ⟨some s0, some c0, false⟩ t (Except.error e : Except E T) =
      ⟨ExecResult.opError e, true,
        ⟨some { s0 with
          state := CircuitState.opened
          failures := s0.failures + 1
          lastFailureTime := some t
          nextRetryTime := some (t + cfg.timeout)
          totalRequests := s0.totalRequests + 1 }, some (c0 + 1), false⟩⟩ := by
  have hnv : ¬ (c0 + 1 < cfg.volumeThreshold) := by omega
  simp [execute, getState, recordRequest, setState, shouldAttemptReset, resetCheck,
    executeInClosedState, hclosed, hnv, htrip]

/-- Guarded CLOSED call, operation succeeds with failures on record: the
failures are cleared and both lifetime counters are bumped. -/
lemma execute_closed_ok_clears (cfg : BreakerConfig) (s0 : CircuitBreakerState)
    (c0 t : ℕ) (v : T)
    (hclosed : s0.state = CircuitState.closed)
    (hvol : cfg.volumeThreshold ≤ c0 + 1)
    (hpos : 0 < s0.failures) :
    execute cfg ⟨some s0, some c0, false⟩ t (Except.ok v : Except E T) =
      ⟨ExecResult.ok v, true,
        ⟨some { s0 with
          failures := 0
          successes := s0.successes + 1
          totalRequests := s0.totalRequests + 1 }, some (c0 + 1), false⟩⟩ := by
  have hnv : ¬ (c0 + 1 < cfg.volumeThreshold) := by omega
  simp [execute, getState, recordRequest, setState, shouldAttemptReset, resetCheck,
    executeInClosedState, hclosed, hnv, hpos]

/-- Guarded CLOSED call, operation succeeds with a clean failure record: the
source skips the store write entirely, so nothing changes but the volume
counter. -/
lemma execute_closed_ok_clean (cfg : BreakerConfig) (s0 : CircuitBreakerState)
    (c0 t : ℕ) (v : T)
    (hclosed : s0.state = CircuitState.closed)
    (hvol : cfg.volumeThreshold ≤ c0 + 1)
    (hzero : s0.failures = 0) :
    execute cfg ⟨some s0, some c0, false⟩ t (Except.ok v : Except E T) =
      ⟨ExecResult.ok v, true, ⟨some s0, some (c0 + 1), false⟩⟩ := by
  have hnv : ¬ (c0 + 1 < cfg.volumeThreshold) := by omega
  simp [execute, getState, recordRequest, setState, shouldAttemptReset, resetCheck,
    executeInClosedState, hclosed, hnv, hzero]

/-- OPEN call that fails the reset check: short-circuit, operation not
invoked, record untouched. -/
lemma execute_open_noreset (cfg : BreakerConfig) (s0 : CircuitBreakerState)
    (c0 now : ℕ) (op : Except E T)
    (hopen : s0.state = CircuitState.opened)
    (hra : shouldAttemptReset s0 now = false) :
    execute cfg ⟨some s0, some c0, false⟩ now op =
      ⟨ExecResult.breakerOpen, false, ⟨some s0, some (c0 + 1), false⟩⟩ := by
  simp [execute, getState, recordRequest, setState, resetCheck, hopen, hra]

/-- OPEN call that passes the reset check and whose trial fails: the breaker
reopens with failures bumped, the streak zeroed and a fresh
`nextRetryTime = now + timeout`. -/
lemma execute_open_reset_fail (cfg : BreakerConfig) (s0 : CircuitBreakerState)
    (c0 now : ℕ) (e : E)
    (hopen : s0.state = CircuitState.opened)
    (hra : shouldAttemptReset s0 now = true) :
    execute cfg ⟨some s0, some c0, false⟩ now (Except.error e : Except E T) =
      ⟨ExecResult.opError e, true,
        ⟨some { s0 with
          state := CircuitState.opened
          failures := s0.failures + 1
          consecutiveSuccesses := 0
          lastFailureTime := some now
          nextRetryTime := some (now + cfg.timeout)
          totalRequests := s0.totalRequests + 1 }, some (c0 + 1), false⟩⟩ := by
  simp [execute, getState, recordRequest, setState, resetCheck, hopen, hra,
    executeInHalfOpenState]

/-- Any OPEN call that passes the reset check does invoke the operation and
settles to the operation's own outcome. -/
lemma execute_open_reset_dispatch (cfg : BreakerConfig) (s0 : CircuitBreakerState)
    (c0 now : ℕ) (op : Except E T)
    (hopen : s0.state = CircuitState.opened)
    (hra : shouldAttemptReset s0 now = true) :
    (execute cfg ⟨some s0, some c0, false⟩ now op).invoked = true ∧
    (execute cfg ⟨some s0, some c0, false⟩ now op).result = liftResult op := by
  cases op with
  | ok v =>
    constructor <;>
      simp [execute, getState, recordRequest, setState, resetCheck, hopen, hra,
        executeInHalfOpenState, liftResult]
  | error e =>
    constructor <;>
      simp [execute, getState, recordRequest, setState, resetCheck, hopen, hra,
        executeInHalfOpenState, liftResult]

/-- HALF_OPEN call, operation succeeds, streak still below the threshold:
streak and lifetime counters are bumped, state stays HALF_OPEN. -/
lemma execute_halfopen_ok_below (cfg : BreakerConfig) (s0 : CircuitBreakerState)
    (c0 t : ℕ) (v : T)
    (hho : s0.state = CircuitState.halfOpen)
    (hbelow : s0.consecutiveSuccesses + 1 < cfg.successThreshold) :
    execute cfg ⟨some s0, some c0, false⟩ t (Except.ok v : Except E T) =
      ⟨ExecResult.ok v, true,
        ⟨some { s0 with
          consecutiveSuccesses := s0.consecutiveSuccesses + 1
          successes := s0.successes + 1
          totalRequests := s0.totalRequests + 1 }, some (c0 + 1), false⟩⟩ := by
  have hnt : ¬ (cfg.successThreshold ≤ s0.consecutiveSuccesses + 1) := by omega
  simp [execute, getState, recordRequest, setState, shouldAttemptReset, resetCheck,
    executeInHalfOpenState, hho, hnt]

/-- HALF_OPEN call, operation succeeds and completes the streak: the circuit
closes with failures and the streak zeroed. -/
lemma execute_halfopen_ok_close (cfg : BreakerConfig) (s0 : CircuitBreakerState)
    (c0 t : ℕ) (v : T)
    (hho : s0.state = CircuitState.halfOpen)
    (hclose : cfg.successThreshold ≤ s0.consecutiveSuccesses + 1) :
    execute cfg ⟨some s0, some c0, false⟩ t (Except.ok v : Except E T) =
      ⟨ExecResult.ok v, true,
        ⟨some { s0 with
          state := CircuitState.closed
          failures := 0
          successes := s0.successes + 1
          consecutiveSuccesses := 0
          totalRequests := s0.totalRequests + 1 }, some (c0 + 1), false⟩⟩ := by
  simp [execute, getState, recordRequest, setState, shouldAttemptReset, resetCheck,
    executeInHalfOpenState, hho, hclose]

/-- HALF_OPEN call whose operation fails: single failure reopens the
circuit. -/
lemma execute_halfopen_fail (cfg : BreakerConfig) (s0 : CircuitBreakerState)
    (c0 now : ℕ) (e : E)
    (hho : s0.state = CircuitState.halfOpen) :
    execute cfg ⟨some s0, some c0, false⟩ now (Except.error e : Except E T) =
      ⟨ExecResult.opError e, true,
        ⟨some { s0 with
          state := CircuitState.opened
          failures := s0.failures + 1
          consecutiveSuccesses := 0
          lastFailureTime := some now
          nextRetryTime := some (now + cfg.timeout)
          totalRequests := s0.totalRequests + 1 }, some (c0 + 1), false⟩⟩ := by
  simp [execute, getState, recordRequest, setState, shouldAttemptReset, resetCheck,
    executeInHalfOpenState, hho]

/-- OPEN call that passes the reset check and whose trial succeeds without
completing the streak (`successThreshold > 1`): the record is HALF_OPEN with
a streak of 1. -/
lemma execute_open_reset_ok_below (cfg : BreakerConfig) (s0 : CircuitBreakerState)
    (c0 now : ℕ) (v : T)
    (hopen : s0.state = CircuitState.opened)
    (hra : shouldAttemptReset s0 now = true)
    (hth : ¬ (cfg.successThreshold ≤ 1)) :
    execute cfg ⟨some s0, some c0, false⟩ now (Except.ok v : Except E T) =
      ⟨ExecResult.ok v, true,
        ⟨some { s0 with
          state := CircuitState.halfOpen
          successes := s0.successes + 1
          consecutiveSuccesses := 1
          totalRequests := s0.totalRequests + 1 }, some (c0 + 1), false⟩⟩ := by
  simp [execute, getState, recordRequest, setState, resetCheck, hopen, hra, hth,
    executeInHalfOpenState]

/-- OPEN call that passes the reset check and whose trial succeeds and
completes the streak (`successThreshold ≤ 1`): the record closes. -/
lemma execute_open_reset_ok_close (cfg : BreakerConfig) (s0 : CircuitBreakerState)
    (c0 now : ℕ) (v : T)
    (hopen : s0.state = CircuitState.opened)
    (hra : shouldAttemptReset s0 now = true)
    (hth : cfg.successThreshold ≤ 1) :
    execute cfg ⟨some s0, some c0, false⟩ now (Except.ok v : Except E T) =
      ⟨ExecResult.ok v, true,
        ⟨some { s0 with
          state := CircuitState.closed
          failures := 0
          successes := s0.successes + 1
          consecutiveSuccesses := 0
          totalRequests := s0.totalRequests + 1 }, some (c0 + 1), false⟩⟩ := by
  simp [execute, getState, recordRequest, setState, resetCheck, hopen, hra, hth,
    executeInHalfOpenState]

/-! ### Runs of consecutive calls -/

/-- A run of guarded CLOSED failing calls that stays below the failure
threshold: failures, totalRequests and the volume counter each grow by the
run length, the state stays CLOSED, and everything else but the failure
timestamp is untouched. -/
lemma closed_fail_run (cfg : BreakerConfig) (e : E) :
    ∀ (ts : List ℕ) (s0 : CircuitBreakerState) (c0 : ℕ),
      s0.state = CircuitState.closed →
      cfg.volumeThreshold ≤ c0 + 1 →
      s0.failures + ts.length < cfg.failureThreshold →
      ∃ lft : Option ℕ,
        executeSeq cfg ⟨some s0, some c0, false⟩
            (ts.map fun t => (t, (Except.error e : Except E T))) =
          ⟨some { s0 with
            failures := s0.failures + ts.length
            lastFailureTime := lft
            totalRequests := s0.totalRequests + ts.length },
           some (c0 + ts.length), false⟩ := by
  intro ts
  induction ts with
  | nil =>
    intro s0 c0 _ _ _
    exact ⟨s0.lastFailureTime, by simp [executeSeq_nil]⟩
  | cons t ts ih =>
    intro s0 c0 hclosed hvol hlen
    have hbelow : s0.failures + 1 < cfg.failureThreshold := by
      simp only [List.length_cons] at hlen; omega
    have hstep := execute_closed_fail_below (T := T) cfg s0 c0 t e hclosed hvol hbelow
    rw [List.map_cons, executeSeq_cons, hstep]
    obtain ⟨lft, hrun⟩ := ih
      { s0 with
        failures := s0.failures + 1
        lastFailureTime := some t
        totalRequests := s0.totalRequests + 1 }
      (c0 + 1) (by simpa using hclosed) (by omega)
      (by simp only [List.length_cons] at hlen; simpa using by omega)
    refine ⟨lft, ?_⟩
    rw [hrun]
    simp only [List.length_cons]
    have h1 : s0.failures + 1 + ts.length = s0.failures + (ts.length + 1) := by omega
    have h2 : s0.totalRequests + 1 + ts.length = s0.totalRequests + (ts.length + 1) := by
      omega
    have h3 : c0 + 1 + ts.length = c0 + (ts.length + 1) := by omega
    simp [h1, h2, h3]

/-- A run of HALF_OPEN successful calls whose streak stays below the success
threshold: the streak and the lifetime counters grow by the run length, the
state stays HALF_OPEN. -/
lemma halfopen_ok_run (cfg : BreakerConfig) (v : T) :
    ∀ (ts : List ℕ) (s0 : CircuitBreakerState) (c0 : ℕ),
      s0.state = CircuitState.halfOpen →
      s0.consecutiveSuccesses + ts.length < cfg.successThreshold →
      executeSeq cfg ⟨some s0, some c0, false⟩
          (ts.map fun t => (t, (Except.ok v : Except E T))) =
        ⟨some { s0 with
          consecutiveSuccesses := s0.consecutiveSuccesses + ts.length
          successes := s0.successes + ts.length
          totalRequests := s0.totalRequests + ts.length },
         some (c0 + ts.length), false⟩ := by
  intro ts
  induction ts with
  | nil =>
    intro s0 c0 _ _
    simp [executeSeq_nil]
  | cons t ts ih =>
    intro s0 c0 hho hlen
    have hbelow : s0.consecutiveSuccesses + 1 < cfg.successThreshold := by
      simp only [List.length_cons] at hlen; omega
    have hstep := execute_halfopen_ok_below (E := E) cfg s0 c0 t v hho hbelow
    rw [List.map_cons, executeSeq_cons, hstep]
    have hrun := ih
      { s0 with
        consecutiveSuccesses := s0.consecutiveSuccesses + 1
        successes := s0.successes + 1
        totalRequests := s0.totalRequests + 1 }
      (c0 + 1) (by simpa using hho)
      (by simp only [List.length_cons] at hlen; simpa using by omega)
    rw [hrun]
    simp only [List.length_cons]
    have h1 : s0.consecutiveSuccesses + 1 + ts.length =
        s0.consecutiveSuccesses + (ts.length + 1) := by omega
    have h2 : s0.successes + 1 + ts.length = s0.successes + (ts.length + 1) := by omega
    have h3 : s0.totalRequests + 1 + ts.length =
        s0.totalRequests + (ts.length + 1) := by omega
    have h4 : c0 + 1 + ts.length = c0 + (ts.length + 1) := by omega
    simp [h1, h2, h3, h4]

/-! ### Counter monotonicity -/

/-- With a fully failing store every `execute` path leaves the store
untouched. -/
lemma execute_broken_kv (cfg : BreakerConfig) (sv : Option CircuitBreakerState)
    (rc : Option ℕ) (now : ℕ) (op : Except E T) :
    (execute cfg ⟨sv, rc, true⟩ now op).kv = ⟨sv, rc, true⟩ := by
  cases op <;>
    simp [execute, getState, recordRequest, setState, resetCheck,
      shouldAttemptReset, defaultBreakerState, executeInClosedState,
      executeInHalfOpenState, apply_ite]

/-- One `execute` call never decreases the persisted lifetime counters. -/
lemma storedCounters_mono_execute (cfg : BreakerConfig) (kv : KVStore) (now : ℕ)
    (op : Except E T) :
    storedTotal kv ≤ storedTotal (execute cfg kv now op).kv ∧
    storedSuccesses kv ≤ storedSuccesses (execute cfg kv now op).kv := by
  obtain ⟨sv, rc, br⟩ := kv
  cases br with
  | true => rw [execute_broken_kv]; exact ⟨le_refl _, le_refl _⟩
  | false =>
    cases sv with
    | none => exact ⟨Nat.zero_le _, Nat.zero_le _⟩
    | some s =>
      cases hst : s.state with
      | closed =>
        have hra : shouldAttemptReset s now = false :=
          shouldAttemptReset_of_not_opened s now (by simp [hst])
        cases op with
        | ok v =>
          simp only [execute, getState, recordRequest, setState, resetCheck, hra,
            executeInClosedState, hst, Bool.false_eq_true, if_false]
          split
          · exact ⟨le_refl _, le_refl _⟩
          · split <;> simp [storedTotal, storedSuccesses]
        | error e =>
          simp only [execute, getState, recordRequest, setState, resetCheck, hra,
            executeInClosedState, hst, Bool.false_eq_true, if_false]
          split
          · exact ⟨le_refl _, le_refl _⟩
          · split <;> simp [storedTotal, storedSuccesses]
      | opened =>
        cases hra : shouldAttemptReset s now with
        | false =>
          simp only [execute, getState, recordRequest, setState, resetCheck, hra,
            hst, Bool.false_eq_true, if_false]
          split
          · exact ⟨le_refl _, le_refl _⟩
          · exact ⟨le_refl _, le_refl _⟩
        | true =>
          cases op with
          | ok v =>
            simp only [execute, getState, recordRequest, setState, resetCheck, hra,
              executeInHalfOpenState, hst, if_true, Bool.false_eq_true, if_false]
            split
            · exact ⟨le_refl _, le_refl _⟩
            · split <;> simp [storedTotal, storedSuccesses]
          | error e =>
            simp only [execute, getState, recordRequest, setState, resetCheck, hra,
              executeInHalfOpenState, hst, if_true, Bool.false_eq_true, if_false]
            split
            · exact ⟨le_refl _, le_refl _⟩
            · simp [storedTotal, storedSuccesses]
      | halfOpen =>
        have hra : shouldAttemptReset s now = false :=
          shouldAttemptReset_of_not_opened s now (by simp [hst])
        cases op with
        | ok v =>
          simp only [execute, getState, recordRequest, setState, resetCheck, hra,
            executeInHalfOpenState, hst, Bool.false_eq_true, if_false]
          split
          · exact ⟨le_refl _, le_refl _⟩
          · split <;> simp [storedTotal, storedSuccesses]
        | error e =>
          simp only [execute, getState, recordRequest, setState, resetCheck, hra,
            executeInHalfOpenState, hst, Bool.false_eq_true, if_false]
          split
          · exact ⟨le_refl _, le_refl _⟩
          · simp [storedTotal, storedSuccesses]

/-- No sequence of calls ever decreases the persisted lifetime counters. -/
lemma storedCounters_mono_seq (cfg : BreakerConfig) :
    ∀ (calls : List (ℕ × Except E T)) (kv : KVStore),
      storedTotal kv ≤ storedTotal (executeSeq cfg kv calls) ∧
      storedSuccesses kv ≤ storedSuccesses (executeSeq cfg kv calls) := by
  intro calls
  induction calls with
  | nil => intro kv; simp [executeSeq_nil]
  | cons c cs ih =>
    intro kv
    have h1 := storedCounters_mono_execute cfg kv c.1 c.2
    have h2 := ih (execute cfg kv c.1 c.2).kv
    rw [executeSeq_cons]
    exact ⟨le_trans h1.1 h2.1, le_trans h1.2 h2.2⟩

/-! ### Behaviour of the retry loop on an always-failing operation -/

/-- With every attempt failing retryably and a well-behaved hook, a loop
granted `n ≥ 1` further iterations starting at attempt `a` performs exactly
`n` invocations and settles to the error of the last attempt `a + n - 1`. -/
lemma withRetryLoop_allfail (op : ℕ → Except E T) (sr : E → ℕ → Bool)
    (opts : RetryOpts) (rand : ℕ → ℚ) (e : ℕ → E)
    (hop : ∀ k, op k = Except.error (e k))
    (hsr : ∀ k, sr (e k) k = true) :
    ∀ (n a : ℕ), 1 ≤ n →
      (withRetryLoop op sr noHook opts rand n a).result =
        Except.error (some (e (a + n - 1))) ∧
      (withRetryLoop op sr noHook opts rand n a).invocations = n := by
  intro n
  induction n with
  | zero => intro a h; omega
  | succ m ih =>
    intro a _
    rcases Nat.eq_zero_or_pos m with hm | hm
    · subst hm
      simp [withRetryLoop, hop a, hsr a]
    · have hm0 : ¬ m = 0 := by omega
      have hrec := ih (a + 1) hm
      have hidx : a + 1 + m - 1 = a + (m + 1) - 1 := by omega
      constructor
      · have hstep : (withRetryLoop op sr noHook opts rand (m + 1) a).result =
            (withRetryLoop op sr noHook opts rand m (a + 1)).result := by
          simp [withRetryLoop, hop a, hsr a, hm0, noHook]
        rw [hstep, hrec.1, hidx]
      · have hstep : (withRetryLoop op sr noHook opts rand (m + 1) a).invocations =
            (withRetryLoop op sr noHook opts rand m (a + 1)).invocations + 1 := by
          simp [withRetryLoop, hop a, hsr a, hm0, noHook]
        rw [hstep, hrec.2]

/-- When attempts `a, …, a + k - 2` fail retryably with the hook returning
normally, and attempt `a + k - 1` fails retryably with the hook throwing
`h` while at least one further iteration remains (`k < n`, i.e. the hook is
reached because the failing attempt is not the last), the loop settles to
the hook's error after exactly `k` invocations, having slept only the
`k - 1` earlier delays. -/
lemma withRetryLoop_hook_abort (op : ℕ → Except E T) (sr : E → ℕ → Bool)
    (onRetry : E → ℕ → Except E Unit) (opts : RetryOpts) (rand : ℕ → ℚ)
    (h : E) :
    ∀ (k a n : ℕ), 1 ≤ k → k < n →
      (∀ j, a ≤ j → j < a + k - 1 →
        ∃ ej, op j = Except.error ej ∧ sr ej j = true ∧
          onRetry ej j = Except.ok ()) →
      (∃ ek, op (a + k - 1) = Except.error ek ∧ sr ek (a + k - 1) = true ∧
        onRetry ek (a + k - 1) = Except.error h) →
      (withRetryLoop op sr onRetry opts rand n a).result =
        Except.error (some h) ∧
      (withRetryLoop op sr onRetry opts rand n a).invocations = k ∧
      (withRetryLoop op sr onRetry opts rand n a).delays.length = k - 1 := by
  intro k
  induction k with
  | zero => intro a n h1; omega
  | succ m ih =>
    intro a n _ hkn hpre hlast
    obtain ⟨n', rfl⟩ : ∃ n', n = n' + 1 := ⟨n - 1, by omega⟩
    have hn0 : ¬ n' = 0 := by omega
    rcases Nat.eq_zero_or_pos m with hm | hm
    · subst hm
      obtain ⟨ek, hop, hsr, hhook⟩ := hlast
      simp only [Nat.add_sub_cancel] at hop hsr hhook
      simp [withRetryLoop, hop, hsr, hhook, hn0]
    · obtain ⟨ea, hopa, hsra, hhooka⟩ := hpre a (le_refl a) (by omega)
      have hidx : a + 1 + m - 1 = a + (m + 1) - 1 := by omega
      have hlast' : ∃ ek, op (a + 1 + m - 1) = Except.error ek ∧
          sr ek (a + 1 + m - 1) = true ∧
          onRetry ek (a + 1 + m - 1) = Except.error h := by
        rw [hidx]; exact hlast
      have hrec := ih (a + 1) n' hm (by omega)
        (fun j hj1 hj2 => hpre j (by omega) (by omega)) hlast'
      refine ⟨?_, ?_, ?_⟩
      · have hstep : (withRetryLoop op sr onRetry opts rand (n' + 1) a).result =
            (withRetryLoop op sr onRetry opts rand n' (a + 1)).result := by
          simp [withRetryLoop, hopa, hsra, hhooka, hn0]
        rw [hstep, hrec.1]
      · have hstep :
            (withRetryLoop op sr onRetry opts rand (n' + 1) a).invocations =
            (withRetryLoop op sr onRetry opts rand n' (a + 1)).invocations + 1 := by
          simp [withRetryLoop, hopa, hsra, hhooka, hn0]
        rw [hstep, hrec.2.1]
      · have hstep :
            (withRetryLoop op sr onRetry opts rand (n' + 1) a).delays.length =
            (withRetryLoop op sr onRetry opts rand n' (a + 1)).delays.length + 1 := by
          simp [withRetryLoop, hopa, hsra, hhooka, hn0]
        rw [hstep, hrec.2.2]
        omega

/-! ### Claim theorems: retry orchestrator -/

/-- C6: for `withRetry` with `maxRetries = N ≥ 1` and an operation failing
on every invocation with an error the retryability predicate classifies as
retryable, the operation is invoked exactly `N` times and the error raised
to the caller is the error observed on the `N`-th (last) attempt — not an
aggregate of earlier errors.  (`e k` is the error of attempt `k`; a
non-throwing hook models the optional `onRetry`.) -/
theorem retry_allfail_invokes_n_raises_last (op : ℕ → Except E T)
    (sr : E → ℕ → Bool) (opts : RetryOpts) (rand : ℕ → ℚ) (e : ℕ → E)
    (hop : ∀ k, op k = Except.error (e k))
    (hsr : ∀ k, sr (e k) k = true)
    (hN : 1 ≤ opts.maxRetries) :
    (withRetry op sr noHook opts rand).result =
      Except.error (some (e opts.maxRetries)) ∧
    (withRetry op sr noHook opts rand).invocations = opts.maxRetries := by
  have h := withRetryLoop_allfail op sr opts rand e hop hsr opts.maxRetries 1 hN
  have hidx : 1 + opts.maxRetries - 1 = opts.maxRetries := by omega
  rw [hidx] at h
  exact h

/-- Witness for C6 at `maxRetries = 3`, attempt `k` failing with error `k`:
three invocations, the raised error is attempt 3's. -/
theorem retry_allfail_invokes_n_raises_last_witness :
    (withRetry (fun k => (Except.error k : Except ℕ ℕ)) (fun _ _ => true) noHook
      ⟨3, 100, 5000, 2⟩ (fun _ => 0)).result = Except.error (some 3) ∧
    (withRetry (fun k => (Except.error k : Except ℕ ℕ)) (fun _ _ => true) noHook
      ⟨3, 100, 5000, 2⟩ (fun _ => 0)).invocations = 3 :=
  retry_allfail_invokes_n_raises_last _ _ _ _ (fun k => k)
    (fun _ => rfl) (fun _ => rfl) (by decide)

/-- C10: calling `withRetry` with `maxRetries = 0` (the embedding of "0 or
any value below 1", since the count is a natural number) never invokes the
wrapped operation and raises the never-assigned `lastError`, i.e. the
`undefined` value (`Except.error none`), instead of a result or a
meaningful error. -/
theorem retry_zero_maxretries_throws_undefined (op : ℕ → Except E T)
    (sr : E → ℕ → Bool) (onRetry : E → ℕ → Except E Unit)
    (i m b : ℚ) (rand : ℕ → ℚ) :
    withRetry op sr onRetry ⟨0, i, m, b⟩ rand =
      ⟨Except.error none, 0, []⟩ := rfl

/-- C7 counterexample: in the run with options
`{maxRetries := 8, initialDelayMs := 100, maxDelayMs := 5000,
backoffMultiplier := 2}`, every attempt failing retryably and every jitter
draw `0 ∈ [0, 1)`, the delay slept before attempt `k + 1 = 8` (index 6) is
`5000`, strictly below the claimed lower bound
`initialDelayMs * multiplier ^ (k - 1) = 100 * 2 ^ 6 = 6400`: the cap at
`maxDelayMs` makes the claimed interval unattainable. -/
theorem retry_delay_lower_bound_counterexample :
    (withRetry (fun _ => (Except.error 0 : Except ℕ ℕ)) (fun _ _ => true) noHook
        ⟨8, 100, 5000, 2⟩ (fun _ => 0)).delays.get? 6 = some 5000 ∧
    ¬ ((100 * 2 ^ (7 - 1) : ℚ) ≤ ((5000 : ℤ) : ℚ)) := by
  constructor
  · norm_num [withRetry, withRetryLoop, calculateDelay, noHook]
  · norm_num

/-- C7 amended: for every attempt `k ≥ 1` and jitter draw `r ∈ [0, 1)`, the
computed delay lies within
`[⌊min(maxDelayMs, initialDelayMs * multiplier^(k-1))⌋,
1.25 * min(maxDelayMs, initialDelayMs * multiplier^(k-1))]` — i.e. the
claimed interval with its lower end also capped at `maxDelayMs` (and floored,
as the code floors the sum). -/
theorem retry_delay_bounds_amended (attempt : ℕ)
    (initialDelay maxDelay multiplier r : ℚ)
    (hk : 1 ≤ attempt) (hi : 0 ≤ initialDelay) (hm : 0 ≤ maxDelay)
    (hb : 0 ≤ multiplier) (hr0 : 0 ≤ r) (hr1 : r < 1) :
    ⌊min (initialDelay * multiplier ^ (attempt - 1)) maxDelay⌋ ≤
      calculateDelay attempt initialDelay maxDelay multiplier r ∧
    (calculateDelay attempt initialDelay maxDelay multiplier r : ℚ) ≤
      5 / 4 * min (initialDelay * multiplier ^ (attempt - 1)) maxDelay := by
  unfold calculateDelay
  set c := min (initialDelay * multiplier ^ (attempt - 1)) maxDelay with hc
  have hc0 : 0 ≤ c := le_min (mul_nonneg hi (pow_nonneg hb _)) hm
  have hj0 : 0 ≤ c * r * (1 / 4) := by positivity
  constructor
  · exact Int.floor_le_floor (by linarith)
  · have hfl : ((⌊c + c * r * (1 / 4)⌋ : ℤ) : ℚ) ≤ c + c * r * (1 / 4) :=
      Int.floor_le _
    have hcr : c * r ≤ c := mul_le_of_le_one_right hc0 (le_of_lt hr1)
    linarith

/-- Witness for the amended C7 at attempt 2,
`initialDelayMs = 100, maxDelayMs = 5000, multiplier = 2, r = 1/2`. -/
theorem retry_delay_bounds_amended_witness :
    ⌊min ((100 : ℚ) * 2 ^ (2 - 1)) 5000⌋ ≤ calculateDelay 2 100 5000 2 (1 / 2) ∧
    (calculateDelay 2 100 5000 2 (1 / 2) : ℚ) ≤
      5 / 4 * min ((100 : ℚ) * 2 ^ (2 - 1)) 5000 :=
  retry_delay_bounds_amended 2 100 5000 2 (1 / 2) (by norm_num) (by norm_num)
    (by norm_num) (by norm_num) (by norm_num) (by norm_num)

/-- C8 counterexample: with `maxRetries = 3`, attempt 1 failing retryably
with error `7`, and an `onRetry` hook that throws `99`, the run stops after
a single invocation (no sleep, no second attempt) and the caller receives
the hook's error `99` — not the behaviour the claim describes (continuing
to the next attempt with the hook's error swallowed, which would give 3
invocations and final error `7`). -/
theorem retry_hook_error_aborts_counterexample :
    (withRetry (fun _ => (Except.error 7 : Except ℕ ℕ)) (fun _ _ => true)
        (fun _ _ => Except.error 99) ⟨3, 100, 5000, 2⟩ (fun _ => 0)).result =
      Except.error (some 99) ∧
    (withRetry (fun _ => (Except.error 7 : Except ℕ ℕ)) (fun _ _ => true)
        (fun _ _ => Except.error 99) ⟨3, 100, 5000, 2⟩ (fun _ => 0)).invocations = 1 ∧
    (withRetry (fun _ => (Except.error 7 : Except ℕ ℕ)) (fun _ _ => true)
        (fun _ _ => Except.error 99) ⟨3, 100, 5000, 2⟩ (fun _ => 0)).delays = [] :=
  ⟨rfl, rfl, rfl⟩

/-- C8 amended: if the `onRetry` hook raises on the retryable failure of
any attempt `k` before exhaustion (`1 ≤ k < maxRetries`; the earlier
attempts having failed retryably with the hook returning normally), the
retry sequence IS aborted at that point: exactly `k` invocations happen,
only the `k - 1` earlier inter-attempt sleeps occur (none after the hook's
error), and the hook's error is the one propagated to the caller (the
source invokes the hook outside any try/catch). -/
theorem retry_hook_error_aborts_amended (op : ℕ → Except E T)
    (sr : E → ℕ → Bool) (onRetry : E → ℕ → Except E Unit)
    (opts : RetryOpts) (rand : ℕ → ℚ) (k : ℕ) (h : E)
    (hk1 : 1 ≤ k) (hkN : k < opts.maxRetries)
    (hpre : ∀ j, 1 ≤ j → j < k →
      ∃ ej, op j = Except.error ej ∧ sr ej j = true ∧
        onRetry ej j = Except.ok ())
    (hlast : ∃ ek, op k = Except.error ek ∧ sr ek k = true ∧
      onRetry ek k = Except.error h) :
    (withRetry op sr onRetry opts rand).result = Except.error (some h) ∧
    (withRetry op sr onRetry opts rand).invocations = k ∧
    (withRetry op sr onRetry opts rand).delays.length = k - 1 := by
  have hidx : 1 + k - 1 = k := by omega
  have hlast' : ∃ ek, op (1 + k - 1) = Except.error ek ∧
      sr ek (1 + k - 1) = true ∧ onRetry ek (1 + k - 1) = Except.error h := by
    rw [hidx]; exact hlast
  exact withRetryLoop_hook_abort op sr onRetry opts rand h k 1
    opts.maxRetries hk1 hkN (fun j hj1 hj2 => hpre j hj1 (by omega)) hlast'

/-- Witness for the amended C8: with `maxRetries = 4`, attempt `j` failing
with error `j`, and a hook that returns normally on error 1 but throws 99
on error 2, the run stops after 2 invocations with one slept delay and
raises 99. -/
theorem retry_hook_error_aborts_amended_witness :
    (withRetry (fun j => (Except.error j : Except ℕ ℕ)) (fun _ _ => true)
      (fun e _ => if e = 2 then Except.error 99 else Except.ok ())
      ⟨4, 100, 5000, 2⟩ (fun _ => 0)).result = Except.error (some 99) ∧
    (withRetry (fun j => (Except.error j : Except ℕ ℕ)) (fun _ _ => true)
      (fun e _ => if e = 2 then Except.error 99 else Except.ok ())
      ⟨4, 100, 5000, 2⟩ (fun _ => 0)).invocations = 2 ∧
    (withRetry (fun j => (Except.error j : Except ℕ ℕ)) (fun _ _ => true)
      (fun e _ => if e = 2 then Except.error 99 else Except.ok ())
      ⟨4, 100, 5000, 2⟩ (fun _ => 0)).delays.length = 2 - 1 :=
  retry_hook_error_aborts_amended _ _ _ _ _ 2 99 (by decide) (by decide)
    (fun j hj1 hj2 => ⟨j, rfl, rfl, by simp [show ¬ j = 2 by omega]⟩)
    ⟨2, rfl, rfl, rfl⟩

/-! ### Claim theorems: circuit breaker -/

/-- C1: starting from a CLOSED record with a clean failure count and request
volume at the threshold, `failureThreshold` consecutive failing calls (the
last at time `tN`) leave the persisted state OPEN with
`nextRetryTime = tN + timeout` and `failures = failureThreshold`; a further
call before that `nextRetryTime` fails with the breaker-open error and the
wrapped operation is not invoked. -/
theorem breaker_closed_failures_trip_then_block (cfg : BreakerConfig)
    (s0 : CircuitBreakerState) (c0 : ℕ) (ts : List ℕ) (tN : ℕ) (e : E)
    (op : Except E' T') (tProbe : ℕ) (kvF : KVStore)
    (hclosed : s0.state = CircuitState.closed) (hf : s0.failures = 0)
    (hvol : cfg.volumeThreshold ≤ c0 + 1)
    (hlen : ts.length + 1 = cfg.failureThreshold)
    (hprobe : tProbe < tN + cfg.timeout)
    (hkv : kvF = executeSeq cfg ⟨some s0, some c0, false⟩
      ((ts ++ [tN]).map fun t => (t, (Except.error e : Except E T)))) :
    (∃ s1, kvF.stateVal = some s1 ∧
      s1.state = CircuitState.opened ∧
      s1.nextRetryTime = some (tN + cfg.timeout) ∧
      s1.failures = cfg.failureThreshold) ∧
    (execute cfg kvF tProbe op).result = ExecResult.breakerOpen ∧
    (execute cfg kvF tProbe op).invoked = false := by
  subst hkv
  have hlt : s0.failures + ts.length < cfg.failureThreshold := by omega
  obtain ⟨lft, hrun⟩ := closed_fail_run (T := T) cfg e ts s0 c0 hclosed hvol hlt
  rw [List.map_append, executeSeq_append, hrun, List.map_cons, List.map_nil,
    executeSeq_cons, executeSeq_nil]
  rw [execute_closed_fail_trip cfg _ _ tN e (by simpa using hclosed)
    (by omega) (by simp; omega)]
  have hnrt :
      ({ s0 with
        state := CircuitState.opened
        failures := s0.failures + ts.length + 1
        lastFailureTime := some tN
        nextRetryTime := some (tN + cfg.timeout)
        totalRequests := s0.totalRequests + ts.length + 1 } :
        CircuitBreakerState).nextRetryTime = some (tN + cfg.timeout) := rfl
  refine ⟨⟨_, rfl, rfl, rfl, by simp; omega⟩, ?_, ?_⟩ <;>
    rw [execute_open_noreset cfg _ _ tProbe op rfl
      (shouldAttemptReset_of_before _ _ _ hnrt hprobe)]

/-- Witness for C1 with
`{failureThreshold := 3, successThreshold := 2, timeout := 1000,
volumeThreshold := 1}`: three failing calls at times 10, 20, 30 open the
circuit with `nextRetryTime = 1030`, and a probe at time 500 is
short-circuited. -/
theorem breaker_closed_failures_trip_then_block_witness :
    (∃ s1, (executeSeq ⟨3, 2, 1000, 1⟩ ⟨some defaultBreakerState, some 0, false⟩
        (([10, 20] ++ [30]).map fun t => (t, (Except.error 0 : Except ℕ ℕ)))).stateVal =
          some s1 ∧
      s1.state = CircuitState.opened ∧
      s1.nextRetryTime = some (30 + (⟨3, 2, 1000, 1⟩ : BreakerConfig).timeout) ∧
      s1.failures = (⟨3, 2, 1000, 1⟩ : BreakerConfig).failureThreshold) ∧
    (execute ⟨3, 2, 1000, 1⟩
      (executeSeq ⟨3, 2, 1000, 1⟩ ⟨some defaultBreakerState, some 0, false⟩
        (([10, 20] ++ [30]).map fun t => (t, (Except.error 0 : Except ℕ ℕ)))) 500
      (Except.ok 5 : Except ℕ ℕ)).result = ExecResult.breakerOpen ∧
    (execute ⟨3, 2, 1000, 1⟩
      (executeSeq ⟨3, 2, 1000, 1⟩ ⟨some defaultBreakerState, some 0, false⟩
        (([10, 20] ++ [30]).map fun t => (t, (Except.error 0 : Except ℕ ℕ)))) 500
      (Except.ok 5 : Except ℕ ℕ)).invoked = false :=
  breaker_closed_failures_trip_then_block ⟨3, 2, 1000, 1⟩ defaultBreakerState 0
    [10, 20] 30 0 (Except.ok 5) 500 _ rfl rfl (by decide) (by decide) (by decide) rfl

/-- C2: for a persisted OPEN record with `nextRetryTime = tr`, every call at
`now < tr` is rejected with the breaker-open error without invoking the
operation; a call at `now ≥ tr` flips the record to HALF_OPEN with
`consecutiveSuccesses = 0` and does invoke the operation, settling to the
operation's own outcome. -/
theorem breaker_open_blocks_then_half_opens (cfg : BreakerConfig)
    (s0 : CircuitBreakerState) (c0 tr : ℕ) (op : Except E T)
    (hopen : s0.state = CircuitState.opened)
    (htr : s0.nextRetryTime = some tr) :
    (∀ now, now < tr →
      (execute cfg ⟨some s0, some c0, false⟩ now op).result =
        ExecResult.breakerOpen ∧
      (execute cfg ⟨some s0, some c0, false⟩ now op).invoked = false) ∧
    (∀ now, tr ≤ now →
      resetCheck s0 now =
        { s0 with state := CircuitState.halfOpen, consecutiveSuccesses := 0 } ∧
      (execute cfg ⟨some s0, some c0, false⟩ now op).invoked = true ∧
      (execute cfg ⟨some s0, some c0, false⟩ now op).result = liftResult op) := by
  constructor
  · intro now hnow
    rw [execute_open_noreset cfg s0 c0 now op hopen
      (shouldAttemptReset_of_before s0 now tr htr hnow)]
    exact ⟨rfl, rfl⟩
  · intro now hnow
    have hra := shouldAttemptReset_of_ready s0 now tr hopen htr hnow
    exact ⟨by simp [resetCheck, hra],
      (execute_open_reset_dispatch cfg s0 c0 now op hopen hra).1,
      (execute_open_reset_dispatch cfg s0 c0 now op hopen hra).2⟩

/-- Witness for C2 on an OPEN record with `nextRetryTime = 1100`:
blocked at 500, half-opened and invoked at 1100. -/
theorem breaker_open_blocks_then_half_opens_witness :
    ((∀ now, now < 1100 →
      (execute ⟨2, 2, 1000, 1⟩
        ⟨some ⟨CircuitState.opened, 2, 0, some 100, some 1100, 0, 2⟩, some 6, false⟩
        now (Except.ok 1 : Except ℕ ℕ)).result = ExecResult.breakerOpen ∧
      (execute ⟨2, 2, 1000, 1⟩
        ⟨some ⟨CircuitState.opened, 2, 0, some 100, some 1100, 0, 2⟩, some 6, false⟩
        now (Except.ok 1 : Except ℕ ℕ)).invoked = false) ∧
    (∀ now, 1100 ≤ now →
      resetCheck ⟨CircuitState.opened, 2, 0, some 100, some 1100, 0, 2⟩ now =
        { (⟨CircuitState.opened, 2, 0, some 100, some 1100, 0, 2⟩ :
            CircuitBreakerState) with
          state := CircuitState.halfOpen, consecutiveSuccesses := 0 } ∧
      (execute ⟨2, 2, 1000, 1⟩
        ⟨some ⟨CircuitState.opened, 2, 0, some 100, some 1100, 0, 2⟩, some 6, false⟩
        now (Except.ok 1 : Except ℕ ℕ)).invoked = true ∧
      (execute ⟨2, 2, 1000, 1⟩
        ⟨some ⟨CircuitState.opened, 2, 0, some 100, some 1100, 0, 2⟩, some 6, false⟩
        now (Except.ok 1 : Except ℕ ℕ)).result = liftResult (Except.ok 1))) :=
  breaker_open_blocks_then_half_opens ⟨2, 2, 1000, 1⟩
    ⟨CircuitState.opened, 2, 0, some 100, some 1100, 0, 2⟩ 6 1100
    (Except.ok 1) rfl rfl

/-- C3: every failing call executed while the breaker is HALF_OPEN leaves
the record OPEN with `consecutiveSuccesses = 0`, `failures` incremented by
one and a fresh `nextRetryTime = now + timeout` that is strictly greater
than the `nextRetryTime = tr` the breaker had before entering HALF_OPEN
(for any positive `timeout`); the operation's error is rethrown.  Both ways
a call can run in HALF_OPEN are covered: the record is OPEN and this very
call flips it (which requires `now ≥ tr`), or the HALF_OPEN record was
already persisted by an earlier call — in which case `nextRetryTime` still
holds `tr` unchanged (neither the flip nor a non-closing successful trial
touches it), and `now ≥ tr` holds for any reachable call because the record
was created by a reset at or after `tr` and wall-clock time does not run
backwards. -/
theorem breaker_halfopen_failure_reopens (cfg : BreakerConfig)
    (s0 : CircuitBreakerState) (c0 tr now : ℕ) (e : E)
    (hstate : s0.state = CircuitState.opened ∨ s0.state = CircuitState.halfOpen)
    (htr : s0.nextRetryTime = some tr)
    (hnow : tr ≤ now) (ht : 0 < cfg.timeout) :
    execute cfg ⟨some s0, some c0, false⟩ now (Except.error e : Except E T) =
      ⟨ExecResult.opError e, true,
        ⟨some { s0 with
          state := CircuitState.opened
          failures := s0.failures + 1
          consecutiveSuccesses := 0
          lastFailureTime := some now
          nextRetryTime := some (now + cfg.timeout)
          totalRequests := s0.totalRequests + 1 }, some (c0 + 1), false⟩⟩ ∧
    tr < now + cfg.timeout := by
  rcases hstate with hopen | hho
  · have hra := shouldAttemptReset_of_ready s0 now tr hopen htr hnow
    exact ⟨execute_open_reset_fail cfg s0 c0 now e hopen hra, by omega⟩
  · exact ⟨execute_halfopen_fail cfg s0 c0 now e hho, by omega⟩

/-- Witness for C3 on an already-persisted HALF_OPEN record (one successful
trial on the books, `nextRetryTime = 1100` carried over from the OPEN
period): a failing trial at 1300 reopens with streak 0, `failures` 2 → 3 and
`nextRetryTime = 2300 > 1100`. -/
theorem breaker_halfopen_failure_reopens_witness :
    execute ⟨2, 3, 1000, 1⟩
      ⟨some ⟨CircuitState.halfOpen, 2, 1, some 100, some 1100, 1, 3⟩, some 7, false⟩
      1300 (Except.error 9 : Except ℕ ℕ) =
      ⟨ExecResult.opError 9, true,
        ⟨some { (⟨CircuitState.halfOpen, 2, 1, some 100, some 1100, 1, 3⟩ :
            CircuitBreakerState) with
          state := CircuitState.opened
          failures := 2 + 1
          consecutiveSuccesses := 0
          lastFailureTime := some 1300
          nextRetryTime := some (1300 + (⟨2, 3, 1000, 1⟩ : BreakerConfig).timeout)
          totalRequests := 3 + 1 }, some (7 + 1), false⟩⟩ ∧
    1100 < 1300 + (⟨2, 3, 1000, 1⟩ : BreakerConfig).timeout :=
  breaker_halfopen_failure_reopens ⟨2, 3, 1000, 1⟩
    ⟨CircuitState.halfOpen, 2, 1, some 100, some 1100, 1, 3⟩ 7 1100 1300 9
    (Or.inr rfl) rfl (by decide) (by decide)

/-- C4: from a HALF_OPEN record with a zero streak, `successThreshold`
consecutive successful trials close the circuit with both `failures` and
`consecutiveSuccesses` reset to 0. -/
theorem breaker_halfopen_streak_closes (cfg : BreakerConfig)
    (s0 : CircuitBreakerState) (c0 : ℕ) (ts : List ℕ) (tN : ℕ) (v : T)
    (kvF : KVStore)
    (hho : s0.state = CircuitState.halfOpen)
    (hcs : s0.consecutiveSuccesses = 0)
    (hlen : ts.length + 1 = cfg.successThreshold)
    (hkv : kvF = executeSeq cfg ⟨some s0, some c0, false⟩
      ((ts ++ [tN]).map fun t => (t, (Except.ok v : Except E T)))) :
    ∃ s1, kvF.stateVal = some s1 ∧
      s1.state = CircuitState.closed ∧
      s1.failures = 0 ∧
      s1.consecutiveSuccesses = 0 := by
  subst hkv
  have hlt : s0.consecutiveSuccesses + ts.length < cfg.successThreshold := by omega
  have hrun := halfopen_ok_run (E := E) cfg v ts s0 c0 hho hlt
  rw [List.map_append, executeSeq_append, hrun, List.map_cons, List.map_nil,
    executeSeq_cons, executeSeq_nil]
  rw [execute_halfopen_ok_close cfg _ _ tN v (by simpa using hho)
    (by simp; omega)]
  exact ⟨_, rfl, rfl, rfl, rfl⟩

/-- Witness for C4 with `successThreshold = 2`: two successful trials from a
fresh HALF_OPEN record close the circuit. -/
theorem breaker_halfopen_streak_closes_witness :
    ∃ s1, (executeSeq ⟨3, 2, 1000, 1⟩
        ⟨some ⟨CircuitState.halfOpen, 2, 0, some 100, some 1100, 0, 2⟩, some 6, false⟩
        (([1200] ++ [1300]).map fun t => (t, (Except.ok 4 : Except ℕ ℕ)))).stateVal =
          some s1 ∧
      s1.state = CircuitState.closed ∧
      s1.failures = 0 ∧
      s1.consecutiveSuccesses = 0 :=
  breaker_halfopen_streak_closes ⟨3, 2, 1000, 1⟩
    ⟨CircuitState.halfOpen, 2, 0, some 100, some 1100, 0, 2⟩ 6 [1200] 1300 4 _
    rfl rfl (by decide) rfl

/-- C5: when every store read and write throws, the guarded call is not
aborted: the breaker degrades to CLOSED pass-through, the wrapped operation
is invoked, its own outcome (result or error) is what the caller sees, and
the store is left as it was — no store error reaches the caller of
`execute` (the embedding's result type has no store-error case, mirroring
the source's catch-all handlers around every store access). -/
theorem breaker_store_failure_passthrough (cfg : BreakerConfig)
    (sv : Option CircuitBreakerState) (rc : Option ℕ) (now : ℕ)
    (op : Except E T)
    (hvol : 0 < cfg.volumeThreshold) :
    execute cfg ⟨sv, rc, true⟩ now op = ⟨liftResult op, true, ⟨sv, rc, true⟩⟩ := by
  cases op <;>
    simp [execute, getState, recordRequest, setState, resetCheck,
      shouldAttemptReset, defaultBreakerState, liftResult, hvol]

/-- Witness for C5: a broken store with a failing operation — the
operation's own error is rethrown unchanged. -/
theorem breaker_store_failure_passthrough_witness :
    execute ⟨2, 2, 1000, 1⟩ (⟨none, none, true⟩ : KVStore) 1100
      (Except.error 9 : Except ℕ ℕ) =
      ⟨liftResult (Except.error 9), true, ⟨none, none, true⟩⟩ :=
  breaker_store_failure_passthrough ⟨2, 2, 1000, 1⟩ none none 1100
    (Except.error 9) (by decide)

/-- C9 counterexample: a guarded invocation (volume counter 6 at threshold
1, state CLOSED) whose operation succeeds while `failures = 0`: the wrapped
operation runs, yet the persisted record — `totalRequests = 7`,
`successes = 3` — is not rewritten at all, so neither counter increases by
exactly 1 as the claim requires (the source only writes the record on the
success path when `failures > 0`). -/
theorem breaker_counters_bump_counterexample :
    (execute ⟨3, 2, 1000, 1⟩
      ⟨some ⟨CircuitState.closed, 0, 3, none, none, 0, 7⟩, some 5, false⟩ 100
      (Except.ok 42 : Except ℕ ℕ)).invoked = true ∧
    ¬ (5 + 1 < (⟨3, 2, 1000, 1⟩ : BreakerConfig).volumeThreshold) ∧
    (execute ⟨3, 2, 1000, 1⟩
      ⟨some ⟨CircuitState.closed, 0, 3, none, none, 0, 7⟩, some 5, false⟩ 100
      (Except.ok 42 : Except ℕ ℕ)).kv.stateVal =
      some ⟨CircuitState.closed, 0, 3, none, none, 0, 7⟩ := by
  decide

/-- C9 amended: for every guarded invocation (volume at or above the
threshold when CLOSED, or state not CLOSED) that is not a CLOSED-state
success with a clean failure count — the one path where the source skips
the store write entirely — if the operation was invoked then the persisted
`totalRequests` increases by exactly 1 and, when the operation succeeded,
`successes` increases by exactly 1; and across arbitrary call sequences
both persisted counters are monotonically non-decreasing. -/
theorem breaker_counters_amended (cfg : BreakerConfig)
    (s0 : CircuitBreakerState) (c0 now : ℕ) (op : Except E T)
    (hguard : ¬ (c0 + 1 < cfg.volumeThreshold ∧ s0.state = CircuitState.closed))
    (hexc : ¬ (s0.state = CircuitState.closed ∧ s0.failures = 0 ∧
      exceptIsOk op = true)) :
    (∃ s1, (execute cfg ⟨some s0, some c0, false⟩ now op).kv.stateVal = some s1 ∧
      s0.totalRequests ≤ s1.totalRequests ∧
      s0.successes ≤ s1.successes ∧
      ((execute cfg ⟨some s0, some c0, false⟩ now op).invoked = true →
        s1.totalRequests = s0.totalRequests + 1 ∧
        (exceptIsOk op = true → s1.successes = s0.successes + 1))) ∧
    (∀ (kv : KVStore) (calls : List (ℕ × Except E T)),
      storedTotal kv ≤ storedTotal (executeSeq cfg kv calls) ∧
      storedSuccesses kv ≤ storedSuccesses (executeSeq cfg kv calls)) := by
  refine ⟨?_, fun kv calls => storedCounters_mono_seq cfg calls kv⟩
  cases hst : s0.state with
  | closed =>
    have hvol : cfg.volumeThreshold ≤ c0 + 1 := by
      rcases Nat.lt_or_ge (c0 + 1) cfg.volumeThreshold with hlt | hge
      · exact absurd ⟨hlt, hst⟩ hguard
      · exact hge
    cases op with
    | ok v =>
      have hfpos : 0 < s0.failures := by
        rcases Nat.eq_zero_or_pos s0.failures with h0 | hp
        · exact absurd ⟨hst, h0, rfl⟩ hexc
        · exact hp
      rw [execute_closed_ok_clears cfg s0 c0 now v hst hvol hfpos]
      exact ⟨_, rfl, by simp, by simp, fun _ => ⟨by simp, fun _ => by simp⟩⟩
    | error e =>
      rcases Nat.lt_or_ge (s0.failures + 1) cfg.failureThreshold with hb | ht
      · rw [execute_closed_fail_below cfg s0 c0 now e hst hvol hb]
        refine ⟨_, rfl, by simp, by simp, fun _ => ⟨by simp, fun hok => ?_⟩⟩
        simp [exceptIsOk] at hok
      · rw [execute_closed_fail_trip cfg s0 c0 now e hst hvol ht]
        refine ⟨_, rfl, by simp, by simp, fun _ => ⟨by simp, fun hok => ?_⟩⟩
        simp [exceptIsOk] at hok
  | opened =>
    cases hra : shouldAttemptReset s0 now with
    | false =>
      rw [execute_open_noreset cfg s0 c0 now op hst hra]
      exact ⟨s0, rfl, le_refl _, le_refl _, fun hinv => by simp at hinv⟩
    | true =>
      cases op with
      | ok v =>
        rcases le_or_lt cfg.successThreshold 1 with hth | hth
        · rw [execute_open_reset_ok_close cfg s0 c0 now v hst hra hth]
          exact ⟨_, rfl, by simp, by simp, fun _ => ⟨by simp, fun _ => by simp⟩⟩
        · have hth' : ¬ (cfg.successThreshold ≤ 1) := by omega
          rw [execute_open_reset_ok_below cfg s0 c0 now v hst hra hth']
          exact ⟨_, rfl, by simp, by simp, fun _ => ⟨by simp, fun _ => by simp⟩⟩
      | error e =>
        rw [execute_open_reset_fail cfg s0 c0 now e hst hra]
        refine ⟨_, rfl, by simp, by simp, fun _ => ⟨by simp, fun hok => ?_⟩⟩
        simp [exceptIsOk] at hok
  | halfOpen =>
    cases op with
    | ok v =>
      rcases le_or_lt cfg.successThreshold (s0.consecutiveSuccesses + 1)
          with hth | hth
      · rw [execute_halfopen_ok_close cfg s0 c0 now v hst hth]
        exact ⟨_, rfl, by simp, by simp, fun _ => ⟨by simp, fun _ => by simp⟩⟩
      · rw [execute_halfopen_ok_below cfg s0 c0 now v hst hth]
        exact ⟨_, rfl, by simp, by simp, fun _ => ⟨by simp, fun _ => by simp⟩⟩
    | error e =>
      rw [execute_halfopen_fail cfg s0 c0 now e hst]
      refine ⟨_, rfl, by simp, by simp, fun _ => ⟨by simp, fun hok => ?_⟩⟩
      simp [exceptIsOk] at hok

/-- Witness for the amended C9: a guarded CLOSED call with `failures = 1`
whose operation succeeds — both counters advance by exactly 1. -/
theorem breaker_counters_amended_witness :
    (∃ s1, (execute ⟨3, 2, 1000, 1⟩
        ⟨some ⟨CircuitState.closed, 1, 0, none, none, 0, 5⟩, some 5, false⟩ 50
        (Except.ok 1 : Except ℕ ℕ)).kv.stateVal = some s1 ∧
      (⟨CircuitState.closed, 1, 0, none, none, 0, 5⟩ :
          CircuitBreakerState).totalRequests ≤ s1.totalRequests ∧
      (⟨CircuitState.closed, 1, 0, none, none, 0, 5⟩ :
          CircuitBreakerState).successes ≤ s1.successes ∧
      ((execute ⟨3, 2, 1000, 1⟩
        ⟨some ⟨CircuitState.closed, 1, 0, none, none, 0, 5⟩, some 5, false⟩ 50
        (Except.ok 1 : Except ℕ ℕ)).invoked = true →
        s1.totalRequests = (⟨CircuitState.closed, 1, 0, none, none, 0, 5⟩ :
          CircuitBreakerState).totalRequests + 1 ∧
        (exceptIsOk (Except.ok 1 : Except ℕ ℕ) = true →
          s1.successes = (⟨CircuitState.closed, 1, 0, none, none, 0, 5⟩ :
            CircuitBreakerState).successes + 1))) ∧
    (∀ (kv : KVStore) (calls : List (ℕ × Except ℕ ℕ)),
      storedTotal kv ≤ storedTotal (executeSeq ⟨3, 2, 1000, 1⟩ kv calls) ∧
      storedSuccesses kv ≤
        storedSuccesses (executeSeq ⟨3, 2, 1000, 1⟩ kv calls)) :=
  breaker_counters_amended ⟨3, 2, 1000, 1⟩
    ⟨CircuitState.closed, 1, 0, none, none, 0, 5⟩ 5 50 (Except.ok 1)
    (by decide) (by decide)

end Resilience
